import Mathlib

/-!
Shallow embedding of the job-queue core of the `agent-architect` repository
(`src/agent-eval/orchestrator/job_queue.py` and the worker loops in
`src/agent-eval/orchestrator/workers/task-worker.py` /
`validation-worker.py`), together with theorems settling the claims about it.

Modelling conventions:
* JSON documents (the persisted queue file, the opaque `parameters` /
  `artifacts` payloads) are the inductive type `JVal`; JSON objects are
  association lists of string keys.  The records this program writes have
  unique keys, so first-key lookup models Python-dict access.
* Python `datetime` values are abstract ticks (`Nat`).  `isoformat` /
  `fromisoformat` are modelled by a decimal string codec (`isoOfTime` /
  `timeOfIso`): an injective rendering whose parser fails (raises
  `ValueError`, i.e. returns `none`) on malformed strings — the only
  properties of the ISO format the queue relies on.
* `datetime.now()` and `uuid.uuid4()` results are passed in explicitly
  (`now : Nat`, `id : String`) — explicit state passing of the ambient
  effects.
* Fallible decoding (`Job.from_dict`, which the source guards with
  `except (KeyError, ValueError, TypeError)`) returns `Option`.  Fields are
  required to have the shapes the dataclass declares (the Python runtime
  would not reject ill-typed field values, but no code path of this
  program produces them).
* The queue's in-memory `self.jobs` dict is an insertion-ordered
  association list `List (String × Job)`; the threading lock and the
  file-retry/backoff loops are single-process no-ops and are not modelled.
-/

namespace AgentEval

/-- A JSON value, as produced by `json.loads` on the persisted queue file. -/
inductive JVal where
  | null
  | bool (b : Bool)
  | num (n : Int)
  | str (s : String)
  | arr (elems : List JVal)
  | obj (fields : List (String × JVal))

/-- `true` exactly on JSON `null` (Python `None`). -/
def JVal.isNull : JVal → Bool
  | .null => true
  | _ => false

/-- First-key lookup in a JSON object, modelling Python dict access. -/
def lookupJ : List (String × JVal) → String → Option JVal
  | [], _ => none
  | (k, v) :: rest, key => if k = key then some v else lookupJ rest key

/-! ### Timestamp codec (model of `datetime.isoformat` / `fromisoformat`) -/

/-- The character for a decimal digit. -/
def valToChar (d : Nat) : Char := Char.ofNat (48 + d)

/-- The value of a decimal digit character; `none` for a non-digit. -/
def charToVal (c : Char) : Option Nat :=
  if 48 ≤ c.toNat ∧ c.toNat ≤ 57 then some (c.toNat - 48) else none

/-- Little-endian decimal digits of `n`, with explicit fuel (`n` itself
suffices) so that the recursion is structural. -/
def natDigitsAux : Nat → Nat → List Nat
  | 0, _ => []
  | fuel + 1, n => if n = 0 then [] else n % 10 :: natDigitsAux fuel (n / 10)

/-- Value of a little-endian decimal digit list. -/
def decodeDigits : List Nat → Nat
  | [] => 0
  | d :: rest => d + 10 * decodeDigits rest

/-- Parse a list of digit characters (most significant first reversed away
by the caller); `none` if any character is not a digit. -/
def mapCharVal : List Char → Option (List Nat)
  | [] => some []
  | c :: cs =>
    match charToVal c, mapCharVal cs with
    | some d, some ds => some (d :: ds)
    | _, _ => none

/-- Model of `datetime.isoformat`: an injective decimal rendering of the
tick. -/
def isoOfTime (t : Nat) : String :=
  if t = 0 then "0" else String.mk (((natDigitsAux t t).map valToChar).reverse)

/-- Model of `datetime.fromisoformat`: parses the rendering back, `none`
(`ValueError`) on the empty string or any non-digit character. -/
def timeOfIso (s : String) : Option Nat :=
  if s.data = [] then none
  else (mapCharVal s.data.reverse).map decodeDigits

/-! ### Enums (`JobStatus`, `JobType`) -/

/-- `class JobStatus(Enum)` from `job_queue.py`. -/
inductive JobStatus where
  | pending
  | running
  | completed
  | failed
  | cancelled
  deriving DecidableEq

/-- The `.value` string of a `JobStatus`. -/
def JobStatus.value : JobStatus → String
  | .pending => "pending"
  | .running => "running"
  | .completed => "completed"
  | .failed => "failed"
  | .cancelled => "cancelled"

/-- Model of the enum constructor `JobStatus(s)`: `none` (`ValueError`) on
a value outside the fixed set. -/
def statusOfValue : JVal → Option JobStatus
  | .str "pending" => some .pending
  | .str "running" => some .running
  | .str "completed" => some .completed
  | .str "failed" => some .failed
  | .str "cancelled" => some .cancelled
  | _ => none

/-- `class JobType(Enum)` from `job_queue.py`. -/
inductive JobType where
  | evaluate_task
  | evolve_epoch
  | compile_check
  | generate_metrics
  deriving DecidableEq

/-- The `.value` string of a `JobType`. -/
def JobType.value : JobType → String
  | .evaluate_task => "evaluate_task"
  | .evolve_epoch => "evolve_epoch"
  | .compile_check => "compile_check"
  | .generate_metrics => "generate_metrics"

/-- Python `str()` of the enum member, as interpolated into worker error
messages (`f"... {job.job_type}"`). -/
def JobType.pyName : JobType → String
  | .evaluate_task => "JobType.EVALUATE_TASK"
  | .evolve_epoch => "JobType.EVOLVE_EPOCH"
  | .compile_check => "JobType.COMPILE_CHECK"
  | .generate_metrics => "JobType.GENERATE_METRICS"

/-- Model of the enum constructor `JobType(s)`. -/
def typeOfValue : JVal → Option JobType
  | .str "evaluate_task" => some .evaluate_task
  | .str "evolve_epoch" => some .evolve_epoch
  | .str "compile_check" => some .compile_check
  | .str "generate_metrics" => some .generate_metrics
  | _ => none

/-! ### `JobResult` and `Job` -/

/-- `@dataclass JobResult` from `job_queue.py`.  `execution_time` is a
pass-through numeric payload (the queue never computes with it);
`artifacts` is an opaque document, normalised from `None` to `{}` by
`__post_init__`. -/
structure JobResult where
  success : Bool
  output : String
  error : String
  execution_time : Int
  artifacts : JVal

/-- `@dataclass Job` from `job_queue.py`. -/
structure Job where
  id : String
  job_type : JobType
  status : JobStatus
  parameters : JVal
  created_at : Nat
  started_at : Option Nat
  completed_at : Option Nat
  result : Option JobResult
  retry_count : Int
  max_retries : Int
  worker_id : Option String

/-- `Job.create`: a fresh `Pending` job. -/
def Job.create (id : String) (job_type : JobType) (parameters : JVal)
    (max_retries : Int) (now : Nat) : Job :=
  { id := id, job_type := job_type, status := .pending,
    parameters := parameters, created_at := now, started_at := none,
    completed_at := none, result := none, retry_count := 0,
    max_retries := max_retries, worker_id := none }

/-- `Job.can_retry`: `retry_count < max_retries`. -/
def Job.can_retry (j : Job) : Bool := decide (j.retry_count < j.max_retries)

/-- `Job.mark_running`. -/
def Job.mark_running (j : Job) (worker_id : String) (now : Nat) : Job :=
  { j with status := .running, started_at := some now,
           worker_id := some worker_id }

/-- `Job.mark_completed`. -/
def Job.mark_completed (j : Job) (result : JobResult) (now : Nat) : Job :=
  { j with status := .completed, completed_at := some now,
           result := some result }

/-- `Job.mark_failed`: retry (back to `Pending`, budget consumed) when
allowed and under budget, terminal `Failed` otherwise; either way the error
string is recorded in `result.error` (creating a fresh failed `JobResult`
— with `artifacts` normalised to `{}` by `__post_init__` — when none is
attached yet). -/
def Job.mark_failed (j : Job) (error : String) (allow_retry : Bool)
    (now : Nat) : Job :=
  let j1 :=
    if allow_retry && j.can_retry then
      { j with retry_count := j.retry_count + 1, status := JobStatus.pending,
               started_at := none, worker_id := none }
    else
      { j with status := JobStatus.failed, completed_at := some now }
  match j1.result with
  | none =>
      { j1 with result := some { success := false, output := "",
                                 error := error, execution_time := 0,
                                 artifacts := JVal.obj [] } }
  | some r => { j1 with result := some { r with error := error } }

/-! ### Serialization (`Job.to_dict` / `Job.from_dict`) -/

/-- Serialization of an optional timestamp: ISO string or `null`. -/
def isoOrNull : Option Nat → JVal
  | none => JVal.null
  | some t => JVal.str (isoOfTime t)

/-- Serialization of the nullable `worker_id`. -/
def strOrNull : Option String → JVal
  | none => JVal.null
  | some s => JVal.str s

/-- The `asdict` image of a `JobResult` (keys in dataclass field order). -/
def JobResult.to_dict (r : JobResult) : JVal :=
  JVal.obj [("success", .bool r.success), ("output", .str r.output),
            ("error", .str r.error), ("execution_time", .num r.execution_time),
            ("artifacts", r.artifacts)]

/-- Serialization of the nullable `result` field. -/
def resultOrNull : Option JobResult → JVal
  | none => JVal.null
  | some r => r.to_dict

/-- `Job.to_dict`: `asdict` (keys in dataclass field order) with datetimes
rendered as ISO strings and enums as their `.value` strings. -/
def Job.to_dict (j : Job) : JVal :=
  JVal.obj [("id", .str j.id), ("job_type", .str j.job_type.value),
            ("status", .str j.status.value), ("parameters", j.parameters),
            ("created_at", .str (isoOfTime j.created_at)),
            ("started_at", isoOrNull j.started_at),
            ("completed_at", isoOrNull j.completed_at),
            ("result", resultOrNull j.result),
            ("retry_count", .num j.retry_count),
            ("max_retries", .num j.max_retries),
            ("worker_id", strOrNull j.worker_id)]

/-- Decode a required timestamp (`datetime.fromisoformat(data[f])`,
`TypeError` on a non-string). -/
def decTime : JVal → Option Nat
  | .str s => timeOfIso s
  | _ => none

/-- Decode an optional timestamp: the source leaves `None` untouched
(`if data[f] is not None`) and parses a string. -/
def decOptTime : JVal → Option (Option Nat)
  | .null => some none
  | .str s => (timeOfIso s).map some
  | _ => none

/-- Decode a string field with a dataclass default for an absent key. -/
def decStrD (v : Option JVal) (dflt : String) : Option String :=
  match v with
  | none => some dflt
  | some (.str s) => some s
  | some _ => none

/-- Decode a numeric field with a dataclass default for an absent key. -/
def decNumD (v : Option JVal) (dflt : Int) : Option Int :=
  match v with
  | none => some dflt
  | some (.num n) => some n
  | some _ => none

/-- `JobResult.__post_init__`: an absent or `None` `artifacts` becomes the
empty document; any other value is kept as-is. -/
def decArtifacts : Option JVal → JVal
  | none => JVal.obj []
  | some JVal.null => JVal.obj []
  | some v => v

/-- The field names accepted by `JobResult(**d)` (any other key raises
`TypeError`, which `Job.from_dict`'s caller catches). -/
def resultFieldNames : List String :=
  ["success", "output", "error", "execution_time", "artifacts"]

/-- Model of `JobResult(**data['result'])`: requires a JSON object whose
keys are `JobResult` fields with `success` present. -/
def JobResult.from_obj (v : JVal) : Option JobResult :=
  match v with
  | .obj fields =>
    if fields.all (fun p => resultFieldNames.contains p.1) then
      match lookupJ fields "success", decStrD (lookupJ fields "output") "",
            decStrD (lookupJ fields "error") "",
            decNumD (lookupJ fields "execution_time") 0 with
      | some (.bool success), some output, some error, some execution_time =>
          some { success := success, output := output, error := error,
                 execution_time := execution_time,
                 artifacts := decArtifacts (lookupJ fields "artifacts") }
      | _, _, _, _ => none
    else none
  | _ => none

/-- Decode the nullable `result` field (`data.get('result')`). -/
def decResult : Option JVal → Option (Option JobResult)
  | none => some none
  | some JVal.null => some none
  | some v => (JobResult.from_obj v).map some

/-- Decode the nullable `worker_id` field. -/
def decWorker : Option JVal → Option (Option String)
  | none => some none
  | some JVal.null => some none
  | some (JVal.str s) => some (some s)
  | some _ => none

/-- The field names accepted by `Job(**data)`. -/
def jobFieldNames : List String :=
  ["id", "job_type", "status", "parameters", "created_at", "started_at",
   "completed_at", "result", "retry_count", "max_retries", "worker_id"]

/-- `Job.from_dict`: `none` on every input on which the source would raise
one of the caught `KeyError` / `ValueError` / `TypeError` exceptions —
a missing required key (`data['created_at']`, `data['started_at']`,
`data['completed_at']`, `data['job_type']`, `data['status']`, or a key
required by `Job(**data)`), an unknown enum value, a malformed timestamp
string, an unexpected key, or an ill-shaped field. -/
def Job.from_dict (v : JVal) : Option Job :=
  match v with
  | .obj data =>
    if data.all (fun p => jobFieldNames.contains p.1) then
      match lookupJ data "created_at", lookupJ data "started_at",
            lookupJ data "completed_at", lookupJ data "job_type",
            lookupJ data "status" with
      | some cav, some sav, some cov, some jtv, some stv =>
        match decTime cav, decOptTime sav, decOptTime cov, typeOfValue jtv,
              statusOfValue stv, lookupJ data "id",
              lookupJ data "parameters" with
        | some created_at, some started_at, some completed_at, some job_type,
          some status, some (.str id), some parameters =>
          match decResult (lookupJ data "result"),
                decNumD (lookupJ data "retry_count") 0,
                decNumD (lookupJ data "max_retries") 3,
                decWorker (lookupJ data "worker_id") with
          | some result, some retry_count, some max_retries, some worker_id =>
            some { id := id, job_type := job_type, status := status,
                   parameters := parameters, created_at := created_at,
                   started_at := started_at, completed_at := completed_at,
                   result := result, retry_count := retry_count,
                   max_retries := max_retries, worker_id := worker_id }
          | _, _, _, _ => none
        | _, _, _, _, _, _, _ => none
      | _, _, _, _, _ => none
    else none
  | _ => none

/-- Well-formedness of an in-memory `JobResult`: its `artifacts` is never
`None` (`__post_init__` normalises it away); every `JobResult` this
program constructs satisfies it. -/
def JobResult.wf (r : JobResult) : Prop := r.artifacts.isNull = false

/-- Decidable form of job well-formedness: the attached result, if any,
has a non-`None` `artifacts`. -/
def Job.wfB (j : Job) : Bool :=
  match j.result with
  | none => true
  | some r => !r.artifacts.isNull

/-- Well-formedness of an in-memory `Job`: its attached result, if any, is
well-formed.  Every job this program constructs satisfies it. -/
@[reducible] def Job.wf (j : Job) : Prop := j.wfB = true

/-! ### `JobQueue`: persistence and the operational API

The in-memory `self.jobs` dict is the insertion-ordered association list
`QState`.  Each operation is the pure state transformer extracted from the
corresponding method; `datetime.now()` is the explicit `now` argument and
the generated `uuid4` id the explicit `id` argument.  `save_to_file` /
`load_from_file` are modelled at the parsed-JSON level (the `json.dump` /
`json.loads` text layer round-trips by construction); the retry/backoff
loops around transient I/O errors collapse in a single-process model. -/

abbrev QState := List (String × Job)

/-- Python dict insert `self.jobs[id] = job`: replaces in place if the key
exists, appends otherwise. -/
def dictInsert : QState → String → Job → QState
  | [], id, j => [(id, j)]
  | (k, v) :: rest, id, j =>
    if k = id then (k, j) :: rest else (k, v) :: dictInsert rest id j

/-- Python dict lookup `self.jobs.get(id)`. -/
def lookupJob : QState → String → Option Job
  | [], _ => none
  | (k, v) :: rest, id => if k = id then some v else lookupJob rest id

/-- In-place mutation of the entry with the given key
(`self.jobs[id].mark_x(...)`): keys are untouched, the value stored under
`id` is transformed. -/
def updateJob (jobs : QState) (id : String) (f : Job → Job) : QState :=
  jobs.map (fun p => (p.1, if p.1 = id then f p.2 else p.2))

/-- `JobQueue.enqueue`: create a `Pending` job and store it (the returned
id is the argument). -/
def enqueue (jobs : QState) (id : String) (job_type : JobType)
    (parameters : JVal) (max_retries : Int) (now : Nat) : QState :=
  dictInsert jobs id (Job.create id job_type parameters max_retries now)

/-- The dequeue filter `if job_types and job.job_type not in job_types:
continue` — `None` **and the empty list** are falsy, so both mean "no
filtering". -/
def passFilter (job_types : Option (List JobType)) (t : JobType) : Bool :=
  match job_types with
  | none => true
  | some ts => if ts.isEmpty then true else ts.contains t

/-- `JobQueue.dequeue`: linear scan (insertion order) for the first
`Pending` job passing the filter; claim it via `mark_running`.  The
`load_from_file` the source performs first is the identity in this
single-process model (see the persistence round-trip theorem). -/
def dequeue (jobs : QState) (worker_id : String)
    (job_types : Option (List JobType)) (now : Nat) : Option Job × QState :=
  match jobs with
  | [] => (none, [])
  | (id, j) :: rest =>
    if j.status = JobStatus.pending ∧ passFilter job_types j.job_type = true then
      let claimed := j.mark_running worker_id now
      (some claimed, (id, claimed) :: rest)
    else
      let step := dequeue rest worker_id job_types now
      (step.1, (id, j) :: step.2)

/-- `JobQueue.get_job`. -/
def get_job (jobs : QState) (id : String) : Option Job := lookupJob jobs id

/-- `JobQueue.complete_job`: guarded by `if job_id in self.jobs`. -/
def complete_job (jobs : QState) (id : String) (result : JobResult)
    (now : Nat) : QState :=
  match lookupJob jobs id with
  | some _ => updateJob jobs id (fun j => j.mark_completed result now)
  | none => jobs

/-- `JobQueue.fail_job`: guarded by `if job_id in self.jobs`. -/
def fail_job (jobs : QState) (id : String) (error : String)
    (allow_retry : Bool) (now : Nat) : QState :=
  match lookupJob jobs id with
  | some _ => updateJob jobs id (fun j => j.mark_failed error allow_retry now)
  | none => jobs

/-- The reset applied to a job by `retry_failed_jobs` and
`reset_running_jobs`: back to `Pending`, claim fields cleared. -/
def requeueJob (j : Job) : Job :=
  { j with status := JobStatus.pending, started_at := none, worker_id := none }

/-- `JobQueue.retry_failed_jobs`: re-queues every job with `can_retry()`
(which checks only `retry_count < max_retries`, not the current status)
and counts them. -/
def retry_failed_jobs : QState → Nat × QState
  | [] => (0, [])
  | (id, j) :: rest =>
    let step := retry_failed_jobs rest
    if j.can_retry then (step.1 + 1, (id, requeueJob j) :: step.2)
    else (step.1, (id, j) :: step.2)

/-- `JobQueue.reset_running_jobs`: forces every `Running` job back to
`Pending` and counts them. -/
def reset_running_jobs : QState → Nat × QState
  | [] => (0, [])
  | (id, j) :: rest =>
    let step := reset_running_jobs rest
    if j.status = JobStatus.running then
      (step.1 + 1, (id, requeueJob j) :: step.2)
    else (step.1, (id, j) :: step.2)

/-- The removal condition of `clear_completed_jobs`: terminal status and a
`completed_at` older than the cutoff (`datetime.now() - older_than`). -/
def shouldClear (cutoff : Nat) (j : Job) : Bool :=
  (j.status = JobStatus.completed ∨ j.status = JobStatus.failed) &&
    match j.completed_at with
    | some t => decide (t < cutoff)
    | none => false

/-- `JobQueue.clear_completed_jobs`. -/
def clear_completed_jobs (jobs : QState) (cutoff : Nat) : Nat × QState :=
  ((jobs.filter (fun p => shouldClear cutoff p.2)).length,
   jobs.filter (fun p => !shouldClear cutoff p.2))

/-- `JobQueue.get_queue_stats`: per-status counts, one entry per
`JobStatus` member in declaration order. -/
def get_queue_stats (jobs : QState) : List (String × Nat) :=
  [JobStatus.pending, .running, .completed, .failed, .cancelled].map
    (fun s => (s.value, (jobs.filter (fun p => p.2.status = s)).length))

/-- `JobQueue.save_to_file`: the parsed form of the JSON document the
atomic write produces. -/
def save_to_file (jobs : QState) (now : Nat) : JVal :=
  JVal.obj [("jobs", JVal.obj (jobs.map (fun p => (p.1, p.2.to_dict)))),
            ("saved_at", JVal.str (isoOfTime now))]

/-- The per-entry decode loop of `load_from_file`: each record is decoded
independently and a record on which `Job.from_dict` raises is skipped
(logged unless silent) without touching its siblings. -/
def load_entries (entries : List (String × JVal)) : QState :=
  entries.filterMap (fun p => (Job.from_dict p.2).map (fun j => (p.1, j)))

/-- `JobQueue.load_from_file` on a file whose text parsed (`json.loads`
succeeded): `data.get('jobs', {})` then the per-entry loop.  A top level
or `jobs` value that is not an object makes the generic exception handler
leave the queue empty. -/
def load_from_file (file : JVal) : QState :=
  match file with
  | .obj fields =>
    match lookupJ fields "jobs" with
    | some (.obj entries) => load_entries entries
    | some _ => []
    | none => []
  | _ => []

/-! ### Worker routing (task-worker.py / validation-worker.py) -/

/-- The error message of `TaskWorker.run` for a wrong-type job
(`f"Wrong job type for task worker: {job.job_type}"`). -/
def taskWorkerWrongTypeMsg (t : JobType) : String :=
  "Wrong job type for task worker: " ++ t.pyName

/-- The routing check of `TaskWorker.run` (task-worker.py lines 47–50): a
dequeued job whose type is not `EVALUATE_TASK` is handed to `fail_job`
**without an `allow_retry` argument**, i.e. with the Python default
`allow_retry=True` (the source comment reads "Wrong job type, put it
back").  The matching-type branch delegates to the external executor and
is outside this model (the state is returned unchanged here; the claims
concern only the wrong-type branch). -/
def taskWorkerDispatch (jobs : QState) (job : Job) (now : Nat) : QState :=
  if job.job_type ≠ JobType.evaluate_task then
    fail_job jobs job.id (taskWorkerWrongTypeMsg job.job_type) true now
  else jobs

/-! ### Spec-side definitions (for refutations and refinement statements) -/

/-- Modelled from the spec's words (claim C3): the dequeue keep-condition
as the claim states it — when a `type_filter` is given, the job's type
must be **in the filter** (no empty-filter escape hatch). -/
def claimPass (job_types : Option (List JobType)) (t : JobType) : Bool :=
  match job_types with
  | none => true
  | some ts => ts.contains t

/-- Modelled from the spec's words (claim C3): scan for the first `Pending`
job satisfying `claimPass`, claim it via `mark_running`, `none` when no
job matches.  To be compared with `dequeue`, which is translated from the
source. -/
def dequeueSpec (jobs : QState) (worker_id : String)
    (job_types : Option (List JobType)) (now : Nat) : Option Job × QState :=
  match jobs with
  | [] => (none, [])
  | (id, j) :: rest =>
    if j.status = JobStatus.pending ∧ claimPass job_types j.job_type = true then
      let claimed := j.mark_running worker_id now
      (some claimed, (id, claimed) :: rest)
    else
      let step := dequeueSpec rest worker_id job_types now
      (step.1, (id, j) :: step.2)

/-- The status-transition graph claimed by the spec (§8, claim C5):
`Pending → Running → Completed / Pending(retry) / Failed`. -/
def specEdges : List (JobStatus × JobStatus) :=
  [(.pending, .running), (.running, .completed), (.running, .pending),
   (.running, .failed)]

/-- The spec graph extended with the two resurrection edges that
`retry_failed_jobs` actually produces (it re-queues on `can_retry()`
alone, ignoring the current status). -/
def allowedEdges : List (JobStatus × JobStatus) :=
  specEdges ++ [(.failed, .pending), (.completed, .pending)]

/-! ### The queue operations as a transition system -/

/-- One queue operation, with arbitrary arguments (`Step s s'` means some
single API call can turn the job map `s` into `s'`). -/
inductive Step : QState → QState → Prop where
  | enq (s : QState) (id : String) (jt : JobType) (params : JVal)
      (mr : Int) (now : Nat) : Step s (enqueue s id jt params mr now)
  | deq (s : QState) (wid : String) (fil : Option (List JobType))
      (now : Nat) : Step s (dequeue s wid fil now).2
  | comp (s : QState) (id : String) (res : JobResult) (now : Nat) :
      Step s (complete_job s id res now)
  | failStep (s : QState) (id : String) (err : String) (ar : Bool)
      (now : Nat) : Step s (fail_job s id err ar now)
  | retry (s : QState) : Step s (retry_failed_jobs s).2
  | reset (s : QState) : Step s (reset_running_jobs s).2
  | clear (s : QState) (cutoff : Nat) : Step s (clear_completed_jobs s cutoff).2

/-- Queue states reachable from the empty queue through the API. -/
inductive Reachable : QState → Prop where
  | init : Reachable []
  | step {s s' : QState} : Reachable s → Step s s' → Reachable s'

/-- One queue operation under the worker protocol: as `Step`, except that
`complete_job` and `fail_job` are invoked only on jobs currently
`Running` (which is how the worker loops use them — they complete or fail
only the job they just dequeued). -/
inductive WStep : QState → QState → Prop where
  | enq (s : QState) (id : String) (jt : JobType) (params : JVal)
      (mr : Int) (now : Nat) : WStep s (enqueue s id jt params mr now)
  | deq (s : QState) (wid : String) (fil : Option (List JobType))
      (now : Nat) : WStep s (dequeue s wid fil now).2
  | comp (s : QState) (id : String) (res : JobResult) (now : Nat)
      (j : Job) (hj : lookupJob s id = some j)
      (hrun : j.status = JobStatus.running) :
      WStep s (complete_job s id res now)
  | failStep (s : QState) (id : String) (err : String) (ar : Bool)
      (now : Nat) (j : Job) (hj : lookupJob s id = some j)
      (hrun : j.status = JobStatus.running) :
      WStep s (fail_job s id err ar now)
  | retry (s : QState) : WStep s (retry_failed_jobs s).2
  | reset (s : QState) : WStep s (reset_running_jobs s).2
  | clear (s : QState) (cutoff : Nat) : WStep s (clear_completed_jobs s cutoff).2

/-! ### Concrete sample data for witnesses and counterexamples -/

/-- A typical `EvaluateTask` payload. -/
def sampleParams : JVal :=
  JVal.obj [("epoch", .str "epoch-001"), ("task", .str "task-001")]

/-- A freshly created `Pending` job of type `CompileCheck`. -/
def pendingCompileJob : Job :=
  Job.create "job-c" .compile_check sampleParams 3 1

/-- The same `CompileCheck` job after a task worker (which dequeues with
no type filter) claimed it. -/
def runningCompileJob : Job := pendingCompileJob.mark_running "worker-1" 2

/-- A freshly created `Pending` job of type `EvaluateTask`. -/
def pendingEvalJob : Job :=
  Job.create "job-e" .evaluate_task sampleParams 3 1

/-- A completed job with an attached result, for round-trip witnesses. -/
def completedEvalJob : Job :=
  (pendingEvalJob.mark_running "worker-2" 3).mark_completed
    { success := true, output := "ok", error := "", execution_time := 7,
      artifacts := JVal.obj [("score", .num 1)] } 9

/-! ## Theorems -/

/-! ### Timestamp codec lemmas -/

theorem decodeDigits_natDigitsAux :
    ∀ fuel n, n ≤ fuel → decodeDigits (natDigitsAux fuel n) = n := by
  intro fuel
  induction fuel with
  | zero =>
    intro n hn
    interval_cases n
    rfl
  | succ f ih =>
    intro n hn
    by_cases h0 : n = 0
    · subst h0; simp [natDigitsAux, decodeDigits]
    · have hdiv : n / 10 ≤ f := by
        have : n / 10 < n := Nat.div_lt_self (Nat.pos_of_ne_zero h0) (by omega)
        omega
      simp only [natDigitsAux, if_neg h0, decodeDigits, ih _ hdiv]
      omega

theorem natDigitsAux_lt_ten :
    ∀ fuel n, ∀ d ∈ natDigitsAux fuel n, d < 10 := by
  intro fuel
  induction fuel with
  | zero => intro n d hd; simp [natDigitsAux] at hd
  | succ f ih =>
    intro n d hd
    by_cases h0 : n = 0
    · subst h0; simp [natDigitsAux] at hd
    · simp only [natDigitsAux, if_neg h0, List.mem_cons] at hd
      cases hd with
      | inl h => subst h; exact Nat.mod_lt _ (by omega)
      | inr h => exact ih _ _ h

theorem charToVal_valToChar (d : Nat) (hd : d < 10) :
    charToVal (valToChar d) = some d := by
  interval_cases d <;> rfl

theorem mapCharVal_map (l : List Nat) (h : ∀ d ∈ l, d < 10) :
    mapCharVal (l.map valToChar) = some l := by
  induction l with
  | nil => rfl
  | cons d rest ih =>
    have hd := h d (List.mem_cons_self d rest)
    have hrest := ih (fun x hx => h x (List.mem_cons_of_mem d hx))
    simp only [List.map_cons, mapCharVal, charToVal_valToChar d hd, hrest]

/-- The timestamp codec round-trips: `fromisoformat (isoformat t) = t`. -/
theorem timeOfIso_isoOfTime (t : Nat) : timeOfIso (isoOfTime t) = some t := by
  by_cases h0 : t = 0
  · subst h0; rfl
  · have hne : natDigitsAux t t ≠ [] := by
      cases t with
      | zero => exact absurd rfl h0
      | succ m => simp [natDigitsAux]
    simp only [isoOfTime, if_neg h0, timeOfIso]
    rw [if_neg]
    · simp only [List.reverse_reverse,
        mapCharVal_map _ (natDigitsAux_lt_ten t t), Option.map_some',
        decodeDigits_natDigitsAux t t (le_refl t)]
    · simp only [List.reverse_eq_nil_iff, ne_eq, List.map_eq_nil_iff]
      exact hne

/-! ### Serialization round-trip lemmas -/

theorem decTime_iso (t : Nat) : decTime (.str (isoOfTime t)) = some t := by
  simp [decTime, timeOfIso_isoOfTime]

theorem decOptTime_isoOrNull (o : Option Nat) :
    decOptTime (isoOrNull o) = some o := by
  cases o with
  | none => rfl
  | some t => simp [isoOrNull, decOptTime, timeOfIso_isoOfTime]

theorem typeOfValue_value (t : JobType) : typeOfValue (.str t.value) = some t := by
  cases t <;> rfl

theorem statusOfValue_value (s : JobStatus) :
    statusOfValue (.str s.value) = some s := by
  cases s <;> rfl

theorem decWorker_strOrNull (w : Option String) :
    decWorker (some (strOrNull w)) = some w := by
  cases w <;> rfl

theorem from_obj_fields (s : Bool) (o e : String) (t : Int) (a : JVal)
    (h : a.isNull = false) :
    JobResult.from_obj (JVal.obj [("success", .bool s), ("output", .str o),
      ("error", .str e), ("execution_time", .num t), ("artifacts", a)]) =
      some ⟨s, o, e, t, a⟩ := by
  cases a with
  | null => simp [JVal.isNull] at h
  | bool b => rfl
  | num n => rfl
  | str s2 => rfl
  | arr l => rfl
  | obj f => rfl

theorem decResult_resultOrNull (res : Option JobResult)
    (h : ∀ r, res = some r → r.wf) :
    decResult (some (resultOrNull res)) = some res := by
  cases res with
  | none => rfl
  | some r =>
    obtain ⟨s, o, e, t, a⟩ := r
    have ha : a.isNull = false := h _ rfl
    simp only [resultOrNull, JobResult.to_dict, decResult,
      from_obj_fields s o e t a ha, Option.map_some']

/-- Serialization round-trips on every well-formed job:
`Job.from_dict (Job.to_dict j) = j`. -/
theorem from_dict_to_dict (j : Job) (h : j.wf) :
    Job.from_dict j.to_dict = some j := by
  obtain ⟨id, jt, st, params, ca, sa, co, res, rc, mr, wid⟩ := j
  have hres : ∀ r, res = some r → r.wf := by
    intro r hr
    simp only [Job.wf, Job.wfB, hr, Bool.not_eq_true'] at h
    exact h
  simp [Job.to_dict, Job.from_dict, lookupJ, jobFieldNames, decTime_iso,
    decOptTime_isoOrNull, typeOfValue_value, statusOfValue_value,
    decResult_resultOrNull res hres, decWorker_strOrNull, decNumD]

/-! ### Association-list lemmas -/

theorem mem_of_lookupJob (s : QState) (id : String) (j : Job)
    (h : lookupJob s id = some j) : (id, j) ∈ s := by
  induction s with
  | nil => simp [lookupJob] at h
  | cons p rest ih =>
    obtain ⟨k, w⟩ := p
    by_cases hk : k = id
    · subst hk
      simp [lookupJob] at h
      subst h
      exact List.mem_cons_self _ _
    · simp only [lookupJob, if_neg hk] at h
      exact List.mem_cons_of_mem _ (ih h)

theorem lookupJob_eq_none_of_not_mem (s : QState) (id : String)
    (h : id ∉ s.map Prod.fst) : lookupJob s id = none := by
  induction s with
  | nil => rfl
  | cons p rest ih =>
    obtain ⟨k, w⟩ := p
    simp only [List.map_cons, List.mem_cons] at h
    push_neg at h
    have hk : k ≠ id := fun hk => h.1 hk.symm
    simp [lookupJob, hk, ih h.2]

theorem lookup_dictInsert (s : QState) (id0 id : String) (v : Job) :
    lookupJob (dictInsert s id0 v) id =
      if id0 = id then some v else lookupJob s id := by
  induction s with
  | nil => simp [dictInsert, lookupJob]
  | cons p rest ih =>
    obtain ⟨k, w⟩ := p
    by_cases hk : k = id0
    · subst hk
      by_cases hi : k = id
      · subst hi; simp [dictInsert, lookupJob]
      · simp [dictInsert, lookupJob, hi]
    · by_cases hi : k = id
      · subst hi
        have hne : id0 ≠ k := fun h => hk h.symm
        simp [dictInsert, lookupJob, hk, hne]
      · simp [dictInsert, lookupJob, hk, hi, ih]

theorem lookup_updateJob (s : QState) (id0 id : String) (f : Job → Job) :
    lookupJob (updateJob s id0 f) id =
      if id0 = id then (lookupJob s id).map f else lookupJob s id := by
  induction s with
  | nil => by_cases h : id0 = id <;> simp [updateJob, lookupJob, h]
  | cons p rest ih =>
    obtain ⟨k, w⟩ := p
    simp only [updateJob, List.map_cons] at ih ⊢
    by_cases hk : k = id0
    · subst hk
      by_cases hi : k = id
      · subst hi; simp [lookupJob]
      · simp [lookupJob, hi, ih]
    · by_cases hi : k = id
      · subst hi
        have hne : id0 ≠ k := fun h => hk h.symm
        simp [lookupJob, hk, hne]
      · simp [lookupJob, hk, hi, ih]

theorem lookup_mapVals (s : QState) (id : String) (g : Job → Job) :
    lookupJob (s.map (fun p => (p.1, g p.2))) id = (lookupJob s id).map g := by
  induction s with
  | nil => rfl
  | cons p rest ih =>
    obtain ⟨k, w⟩ := p
    by_cases hk : k = id <;> simp [lookupJob, hk, ih]

theorem lookup_filter_vals (s : QState) (q : Job → Bool) (id : String)
    (hnd : (s.map Prod.fst).Nodup) :
    lookupJob (s.filter (fun p => q p.2)) id =
      (lookupJob s id).bind (fun j => if q j then some j else none) := by
  induction s with
  | nil => rfl
  | cons p rest ih =>
    obtain ⟨k, w⟩ := p
    simp only [List.map_cons, List.nodup_cons] at hnd
    by_cases hk : k = id
    · subst hk
      by_cases hq : q w
      · simp [List.filter_cons, hq, lookupJob]
      · have hnotin : k ∉ (rest.filter (fun p => q p.2)).map Prod.fst := by
          intro hmem
          simp only [List.mem_map] at hmem
          obtain ⟨p0, hp0, hfst⟩ := hmem
          exact hnd.1 (by
            simp only [List.mem_map]
            exact ⟨p0, (List.mem_filter.mp hp0).1, hfst⟩)
        simp [List.filter_cons, hq, lookupJob,
          lookupJob_eq_none_of_not_mem _ _ hnotin]
    · by_cases hq : q w <;>
        simp [List.filter_cons, hq, lookupJob, hk, ih hnd.2]

/-! ### Status-transition lemmas for single jobs -/

theorem mark_failed_status (j : Job) (e : String) (a : Bool) (n : Nat) :
    (j.mark_failed e a n).status =
      if a && j.can_retry then JobStatus.pending else JobStatus.failed := by
  unfold Job.mark_failed
  cases hab : a && j.can_retry <;> simp [hab] <;>
    cases hr : j.result <;> simp [hr]

/-! ### Characterizations of the bulk operations -/

theorem retry_failed_jobs_eq (jobs : QState) :
    retry_failed_jobs jobs =
      ((jobs.filter (fun p => p.2.can_retry)).length,
       jobs.map (fun p =>
         (p.1, if p.2.can_retry then requeueJob p.2 else p.2))) := by
  induction jobs with
  | nil => rfl
  | cons p rest ih =>
    obtain ⟨k, j⟩ := p
    by_cases hc : j.can_retry <;>
      simp [retry_failed_jobs, ih, hc, List.filter_cons]

theorem reset_running_jobs_eq (jobs : QState) :
    reset_running_jobs jobs =
      ((jobs.filter (fun p => p.2.status = JobStatus.running)).length,
       jobs.map (fun p =>
         (p.1, if p.2.status = JobStatus.running then requeueJob p.2
               else p.2))) := by
  induction jobs with
  | nil => rfl
  | cons p rest ih =>
    obtain ⟨k, j⟩ := p
    by_cases hc : j.status = JobStatus.running <;>
      simp [reset_running_jobs, ih, hc, List.filter_cons]

theorem dequeue_lookup (s : QState) (wid : String)
    (fil : Option (List JobType)) (now : Nat) (id : String) :
    lookupJob (dequeue s wid fil now).2 id = lookupJob s id ∨
    ∃ j, lookupJob s id = some j ∧ j.status = JobStatus.pending ∧
      lookupJob (dequeue s wid fil now).2 id =
        some (j.mark_running wid now) := by
  induction s with
  | nil => left; rfl
  | cons p rest ih =>
    obtain ⟨k, j⟩ := p
    by_cases hcond :
        j.status = JobStatus.pending ∧ passFilter fil j.job_type = true
    · by_cases hk : k = id
      · subst hk
        right
        exact ⟨j, by simp [lookupJob], hcond.1,
          by simp [dequeue, hcond, lookupJob]⟩
      · left; simp [dequeue, hcond, lookupJob, hk]
    · by_cases hk : k = id
      · subst hk; left; simp [dequeue, hcond, lookupJob]
      · rcases ih with h | ⟨j0, h1, h2, h3⟩
        · left; simp [dequeue, hcond, lookupJob, hk, h]
        · right
          exact ⟨j0, by simp [lookupJob, hk, h1], h2,
            by simp [dequeue, hcond, lookupJob, hk, h3]⟩

/-! ### Membership lemmas for the bulk operations -/

theorem mem_dictInsert (s : QState) (id : String) (v : Job)
    (p : String × Job) (h : p ∈ dictInsert s id v) : p ∈ s ∨ p.2 = v := by
  induction s with
  | nil =>
    simp [dictInsert] at h
    right; rw [h]
  | cons q rest ih =>
    obtain ⟨k, w⟩ := q
    by_cases hk : k = id
    · simp only [dictInsert, if_pos hk, List.mem_cons] at h
      rcases h with h | h
      · right; rw [h]
      · left; exact List.mem_cons_of_mem _ h
    · simp only [dictInsert, if_neg hk, List.mem_cons] at h
      rcases h with h | h
      · left; rw [h]; exact List.mem_cons_self _ _
      · rcases ih h with h2 | h2
        · left; exact List.mem_cons_of_mem _ h2
        · right; exact h2

theorem mem_dequeue (s : QState) (wid : String) (fil : Option (List JobType))
    (now : Nat) (p : String × Job) (h : p ∈ (dequeue s wid fil now).2) :
    p ∈ s ∨ ∃ q, q ∈ s ∧ p.2 = (q : String × Job).2.mark_running wid now := by
  induction s with
  | nil => simp [dequeue] at h
  | cons q0 rest ih =>
    obtain ⟨k, j⟩ := q0
    by_cases hcond :
        j.status = JobStatus.pending ∧ passFilter fil j.job_type = true
    · simp only [dequeue, if_pos hcond, List.mem_cons] at h
      rcases h with h | h
      · right
        exact ⟨(k, j), List.mem_cons_self _ _, by rw [h]⟩
      · left; exact List.mem_cons_of_mem _ h
    · simp only [dequeue, if_neg hcond, List.mem_cons] at h
      rcases h with h | h
      · left; rw [h]; exact List.mem_cons_self _ _
      · rcases ih h with h2 | ⟨q, hq, he⟩
        · left; exact List.mem_cons_of_mem _ h2
        · right; exact ⟨q, List.mem_cons_of_mem _ hq, he⟩

/-! ### No operation ever assigns the `Cancelled` status -/

theorem step_preserves_noCancelled {s s' : QState} (h : Step s s')
    (hs : ∀ p ∈ s, p.2.status ≠ JobStatus.cancelled) :
    ∀ p ∈ s', p.2.status ≠ JobStatus.cancelled := by
  cases h with
  | enq id jt params mr now =>
    intro p hp
    rcases mem_dictInsert s id _ p hp with h | h
    · exact hs p h
    · rw [h]; simp [Job.create]
  | deq wid fil now =>
    intro p hp
    rcases mem_dequeue s wid fil now p hp with h | ⟨q, hq, he⟩
    · exact hs p h
    · rw [he]; simp [Job.mark_running]
  | comp id res now =>
    intro p hp
    cases hl : lookupJob s id with
    | none => rw [complete_job, hl] at hp; exact hs p hp
    | some jg =>
      rw [complete_job, hl] at hp
      simp only [updateJob, List.mem_map] at hp
      obtain ⟨q, hq, rfl⟩ := hp
      by_cases hk : q.1 = id
      · simp [hk, Job.mark_completed]
      · simp only [if_neg hk]
        exact hs q hq
  | failStep id err ar now =>
    intro p hp
    cases hl : lookupJob s id with
    | none => rw [fail_job, hl] at hp; exact hs p hp
    | some jg =>
      rw [fail_job, hl] at hp
      simp only [updateJob, List.mem_map] at hp
      obtain ⟨q, hq, rfl⟩ := hp
      by_cases hk : q.1 = id
      · have heq : (if q.1 = id then q.2.mark_failed err ar now else q.2) =
            q.2.mark_failed err ar now := if_pos hk
        rw [heq, mark_failed_status]
        cases ar && q.2.can_retry <;> simp
      · simp only [if_neg hk]
        exact hs q hq
  | retry =>
    intro p hp
    rw [retry_failed_jobs_eq] at hp
    simp only [List.mem_map] at hp
    obtain ⟨q, hq, rfl⟩ := hp
    by_cases hc : q.2.can_retry = true
    · simp [hc, requeueJob]
    · simp only [if_neg hc]
      exact hs q hq
  | reset =>
    intro p hp
    rw [reset_running_jobs_eq] at hp
    simp only [List.mem_map] at hp
    obtain ⟨q, hq, rfl⟩ := hp
    by_cases hc : q.2.status = JobStatus.running
    · simp [hc, requeueJob]
    · simp only [if_neg hc]
      exact hs q hq
  | clear cutoff =>
    intro p hp
    simp only [clear_completed_jobs, List.mem_filter] at hp
    exact hs p hp.1

/-! ### Claim C5 (amended): the status-transition graph -/

/-- C5 (amended): under any single queue operation — with `complete_job`
and `fail_job` invoked only on `Running` jobs, as the worker loops do —
every job's status is unchanged or moves along an edge of the spec graph
`Pending → Running → Completed / Pending / Failed` **extended with the
resurrection edges `Failed → Pending` and `Completed → Pending`** that
`retry_failed_jobs` produces (it re-queues on `retry_count < max_retries`
alone, ignoring the current status).  The unextended spec graph is refuted
by `retry_resurrects_failed_job_counterexample`. -/
theorem worker_transition_graph (s s' : QState) (hstep : WStep s s')
    (hnd : (s.map Prod.fst).Nodup)
    (hnc : ∀ p ∈ s, p.2.status ≠ JobStatus.cancelled)
    (id : String) (j j' : Job)
    (hj : lookupJob s id = some j) (hj' : lookupJob s' id = some j') :
    j'.status = j.status ∨ (j.status, j'.status) ∈ allowedEdges := by
  cases hstep with
  | enq id0 jt params mr now =>
    rw [enqueue, lookup_dictInsert] at hj'
    by_cases hk : id0 = id
    · rw [if_pos hk] at hj'
      have he : Job.create id0 jt params mr now = j' := by injection hj'
      have hps : j'.status = JobStatus.pending := by rw [← he]; rfl
      have hcs := hnc _ (mem_of_lookupJob s id j hj)
      rw [hps]
      cases hst : j.status with
      | pending => left; rfl
      | running => right; decide
      | completed => right; decide
      | failed => right; decide
      | cancelled => exact absurd hst hcs
    · rw [if_neg hk, hj] at hj'
      have he : j = j' := by injection hj'
      left; rw [he]
  | deq wid fil now =>
    rcases dequeue_lookup s wid fil now id with h | ⟨j0, h1, h2, h3⟩
    · rw [h, hj] at hj'
      have he : j = j' := by injection hj'
      left; rw [he]
    · rw [hj] at h1
      have he0 : j = j0 := by injection h1
      subst he0
      rw [h3] at hj'
      have he : j.mark_running wid now = j' := by injection hj'
      have hrs : j'.status = JobStatus.running := by rw [← he]; rfl
      right; rw [h2, hrs]; decide
  | comp id0 res now jg hjg hrun =>
    have hs' : complete_job s id0 res now =
        updateJob s id0 (fun j => j.mark_completed res now) := by
      rw [complete_job, hjg]
    rw [hs', lookup_updateJob] at hj'
    by_cases hk : id0 = id
    · rw [if_pos hk, hj, Option.map_some'] at hj'
      have he : j.mark_completed res now = j' := by injection hj'
      have hgj : jg = j := by
        rw [hk, hj] at hjg
        injection hjg with h
        exact h.symm
      have hcs : j'.status = JobStatus.completed := by rw [← he]; rfl
      right
      have hjs : j.status = JobStatus.running := by rw [← hgj]; exact hrun
      rw [hjs, hcs]; decide
    · rw [if_neg hk, hj] at hj'
      have he : j = j' := by injection hj'
      left; rw [he]
  | failStep id0 err ar now jg hjg hrun =>
    have hs' : fail_job s id0 err ar now =
        updateJob s id0 (fun j => j.mark_failed err ar now) := by
      rw [fail_job, hjg]
    rw [hs', lookup_updateJob] at hj'
    by_cases hk : id0 = id
    · rw [if_pos hk, hj, Option.map_some'] at hj'
      have he : j.mark_failed err ar now = j' := by injection hj'
      have hgj : jg = j := by
        rw [hk, hj] at hjg
        injection hjg with h
        exact h.symm
      have hfs : j'.status =
          if ar && j.can_retry then JobStatus.pending else JobStatus.failed := by
        rw [← he, mark_failed_status]
      right
      have hjs : j.status = JobStatus.running := by rw [← hgj]; exact hrun
      rw [hjs]
      cases hab : ar && j.can_retry
      · rw [hab] at hfs
        simp only [Bool.false_eq_true, if_false] at hfs
        rw [hfs]; decide
      · rw [hab] at hfs
        simp only [if_true] at hfs
        rw [hfs]; decide
    · rw [if_neg hk, hj] at hj'
      have he : j = j' := by injection hj'
      left; rw [he]
  | retry =>
    have hmap : lookupJob (retry_failed_jobs s).2 id =
        (lookupJob s id).map
          (fun j => if j.can_retry then requeueJob j else j) := by
      rw [retry_failed_jobs_eq]
      exact lookup_mapVals s id (fun j => if j.can_retry then requeueJob j else j)
    rw [hmap, hj, Option.map_some'] at hj'
    have he :
        (if j.can_retry then requeueJob j else j) = j' := by injection hj'
    by_cases hc : j.can_retry
    · rw [if_pos hc] at he
      have hps : j'.status = JobStatus.pending := by rw [← he]; rfl
      have hcs := hnc _ (mem_of_lookupJob s id j hj)
      rw [hps]
      cases hst : j.status with
      | pending => left; rfl
      | running => right; decide
      | completed => right; decide
      | failed => right; decide
      | cancelled => exact absurd hst hcs
    · rw [if_neg hc] at he
      left; rw [he]
  | reset =>
    have hmap : lookupJob (reset_running_jobs s).2 id =
        (lookupJob s id).map
          (fun j => if j.status = JobStatus.running then requeueJob j
                    else j) := by
      rw [reset_running_jobs_eq]
      exact lookup_mapVals s id
        (fun j => if j.status = JobStatus.running then requeueJob j else j)
    rw [hmap, hj, Option.map_some'] at hj'
    have he :
        (if j.status = JobStatus.running then requeueJob j else j) = j' := by
      injection hj'
    by_cases hc : j.status = JobStatus.running
    · rw [if_pos hc] at he
      have hps : j'.status = JobStatus.pending := by rw [← he]; rfl
      right; rw [hc, hps]; decide
    · rw [if_neg hc] at he
      left; rw [he]
  | clear cutoff =>
    have hmap : lookupJob (clear_completed_jobs s cutoff).2 id =
        (lookupJob s id).bind
          (fun j => if !shouldClear cutoff j then some j else none) :=
      lookup_filter_vals s (fun j => !shouldClear cutoff j) id hnd
    rw [hmap, hj] at hj'
    have hj2 : (if !shouldClear cutoff j then some j else none) = some j' := hj'
    by_cases hq : (!shouldClear cutoff j) = true
    · rw [if_pos hq] at hj2
      have he : j = j' := by injection hj2
      left; rw [he]
    · rw [if_neg hq] at hj2
      exact absurd hj2 (by simp)

/-- C5 (counterexample): the transition graph of the claim is violated by
the code.  Concretely: enqueue a job, dequeue it, fail it terminally
(`allow_retry=false`, so `retry_count` is still `0 < max_retries`), then
call `retry_failed_jobs` — the job's status goes `Failed → Pending`, a
transition outside `Pending → Running → Completed/Pending/Failed`. -/
theorem retry_resurrects_failed_job_counterexample :
    ((lookupJob (fail_job
        (dequeue (enqueue [] "job-e" JobType.evaluate_task sampleParams 3 0)
          "worker-1" none 1).2 "job-e" "boom" false 2) "job-e").map
            Job.status = some JobStatus.failed ∧
      (lookupJob (retry_failed_jobs (fail_job
        (dequeue (enqueue [] "job-e" JobType.evaluate_task sampleParams 3 0)
          "worker-1" none 1).2 "job-e" "boom" false 2)).2 "job-e").map
            Job.status = some JobStatus.pending) ∧
    (JobStatus.failed, JobStatus.pending) ∉ specEdges ∧
    JobStatus.failed ≠ JobStatus.pending := by
  decide

/-- Witness for `worker_transition_graph`: instantiated at a one-job queue
and the dequeue step that claims the pending job. -/
theorem worker_transition_graph_witness :
    (pendingEvalJob.mark_running "worker-1" 5).status = pendingEvalJob.status ∨
    (pendingEvalJob.status,
      (pendingEvalJob.mark_running "worker-1" 5).status) ∈ allowedEdges :=
  worker_transition_graph [("job-e", pendingEvalJob)] _
    (WStep.deq [("job-e", pendingEvalJob)] "worker-1" none 5)
    (by simp)
    (by decide)
    "job-e" pendingEvalJob (pendingEvalJob.mark_running "worker-1" 5) rfl rfl

/-! ### Claim C10: the `Cancelled` status is never assigned -/

/-- C10: in every queue state reachable from the empty queue through the
queue operations (`enqueue`, `dequeue`, `complete_job`, `fail_job`,
`retry_failed_jobs`, `reset_running_jobs`, `clear_completed_jobs`), no
job has status `Cancelled`: jobs are created `Pending` and no operation
ever assigns `Cancelled`, even though the status enumeration and
`get_queue_stats` include it. -/
theorem no_job_ever_cancelled (s : QState) (h : Reachable s) :
    ∀ p ∈ s, p.2.status ≠ JobStatus.cancelled := by
  induction h with
  | init => intro p hp; simp at hp
  | step hr hst ih => exact step_preserves_noCancelled hst ih

/-- Witness for `no_job_ever_cancelled`: the queue reached by one
`enqueue` from the empty queue. -/
theorem no_job_ever_cancelled_witness :
    pendingEvalJob.status ≠ JobStatus.cancelled :=
  no_job_ever_cancelled
    (enqueue [] "job-e" JobType.evaluate_task sampleParams 3 1)
    (Reachable.step Reachable.init
      (Step.enq [] "job-e" JobType.evaluate_task sampleParams 3 1))
    ("job-e", pendingEvalJob) (by simp [enqueue, dictInsert, pendingEvalJob])

/-! ### Claim C3: type-filtered dequeue -/

theorem passFilter_eq_claimPass (fil : Option (List JobType)) (t : JobType)
    (h : ∀ ts, fil = some ts → ts ≠ []) :
    passFilter fil t = claimPass fil t := by
  cases fil with
  | none => rfl
  | some ts =>
    cases ts with
    | nil => exact absurd rfl (h [] rfl)
    | cons a l => rfl

theorem dequeue_eq_dequeueSpec (s : QState) (wid : String)
    (fil : Option (List JobType)) (now : Nat)
    (h : ∀ ts, fil = some ts → ts ≠ []) :
    dequeue s wid fil now = dequeueSpec s wid fil now := by
  induction s with
  | nil => rfl
  | cons p rest ih =>
    obtain ⟨k, j⟩ := p
    simp only [dequeue, dequeueSpec,
      passFilter_eq_claimPass fil j.job_type h, ih]

theorem dequeueSpec_none_iff (s : QState) (wid : String)
    (fil : Option (List JobType)) (now : Nat) :
    (dequeueSpec s wid fil now).1 = none ↔
      ∀ p ∈ s, ¬(p.2.status = JobStatus.pending ∧
                 claimPass fil p.2.job_type = true) := by
  induction s with
  | nil => simp [dequeueSpec]
  | cons p rest ih =>
    obtain ⟨k, j⟩ := p
    by_cases hc : j.status = JobStatus.pending ∧ claimPass fil j.job_type = true
    · simp [dequeueSpec, hc]
    · rw [show (dequeueSpec ((k, j) :: rest) wid fil now).1 =
            (dequeueSpec rest wid fil now).1 from by simp [dequeueSpec, hc]]
      rw [ih]
      constructor
      · intro hall p hp
        rcases List.mem_cons.mp hp with h | h
        · rw [h]; exact hc
        · exact hall p h
      · intro hall p hp
        exact hall p (List.mem_cons_of_mem _ hp)

/-- C3 (amended): when the type filter is absent or a **non-empty** list,
`dequeue` behaves exactly as the claim states: it returns the first job in
scan order whose status is `Pending` and whose type is in the filter (when
one is given), claiming it via `mark_running` (status `Running`,
`worker_id` and `started_at` set) — this is the spec-worded `dequeueSpec`
— and it returns `none` precisely when no `Pending` job matches.  An
**empty** filter list, being falsy in Python, instead behaves like no
filter at all (see `dequeue_empty_filter_counterexample`). -/
theorem dequeue_first_matching (s : QState) (wid : String)
    (fil : Option (List JobType)) (now : Nat)
    (h : ∀ ts, fil = some ts → ts ≠ []) :
    dequeue s wid fil now = dequeueSpec s wid fil now ∧
    ((dequeue s wid fil now).1 = none ↔
      ∀ p ∈ s, ¬(p.2.status = JobStatus.pending ∧
                 claimPass fil p.2.job_type = true)) := by
  have heq := dequeue_eq_dequeueSpec s wid fil now h
  exact ⟨heq, by rw [heq]; exact dequeueSpec_none_iff s wid fil now⟩

/-- Witness for `dequeue_first_matching`: a pending `CompileCheck` job is
not returned under the non-empty filter `[EvaluateTask]`. -/
theorem dequeue_first_matching_witness :
    dequeue [("job-c", pendingCompileJob)] "worker-1"
        (some [JobType.evaluate_task]) 5 =
      dequeueSpec [("job-c", pendingCompileJob)] "worker-1"
        (some [JobType.evaluate_task]) 5 ∧
    ((dequeue [("job-c", pendingCompileJob)] "worker-1"
        (some [JobType.evaluate_task]) 5).1 = none ↔
      ∀ p ∈ [("job-c", pendingCompileJob)],
        ¬(p.2.status = JobStatus.pending ∧
          claimPass (some [JobType.evaluate_task]) p.2.job_type = true)) :=
  dequeue_first_matching [("job-c", pendingCompileJob)] "worker-1"
    (some [JobType.evaluate_task]) 5
    (by intro ts hts; cases hts; simp)

/-- C3 (counterexample): with the filter `some []` — a given filter that
no job type is in — the claim requires `dequeue` to return `none`, but the
code returns the pending `CompileCheck` job, because
`if job_types and job.job_type not in job_types` treats the empty list as
falsy. -/
theorem dequeue_empty_filter_counterexample :
    (dequeue [("job-c", pendingCompileJob)] "worker-1" (some []) 5).1 =
      some (pendingCompileJob.mark_running "worker-1" 5) ∧
    claimPass (some []) pendingCompileJob.job_type = false :=
  ⟨rfl, rfl⟩

/-! ### Claim C2: retry exhaustion -/

/-- C2: a job enqueued with `max_retries = 2`, each time dequeued and then
failed with `allow_retry = true`: after failure 1 it is `Pending` with
`retry_count = 1` and `started_at` / `worker_id` cleared (and the error
recorded in `result.error`); after failure 2 it is `Pending` with
`retry_count = 2`; after failure 3 it is `Failed` with `completed_at` set
and the last error attached into `result.error`. -/
theorem retry_exhaustion_scenario (jt : JobType) (params : JVal)
    (w1 w2 w3 e1 e2 e3 : String) (t0 t1 t2 t3 t4 t5 t6 : Nat) :
    let q1 := (dequeue (enqueue [] "job-1" jt params 2 t0) w1 none t1).2
    let q2 := fail_job q1 "job-1" e1 true t2
    let q3 := (dequeue q2 w2 none t3).2
    let q4 := fail_job q3 "job-1" e2 true t4
    let q5 := (dequeue q4 w3 none t5).2
    let q6 := fail_job q5 "job-1" e3 true t6
    lookupJob q2 "job-1" =
      some { id := "job-1", job_type := jt, status := JobStatus.pending,
             parameters := params, created_at := t0, started_at := none,
             completed_at := none,
             result := some { success := false, output := "", error := e1,
                              execution_time := 0, artifacts := JVal.obj [] },
             retry_count := 1, max_retries := 2, worker_id := none } ∧
    lookupJob q4 "job-1" =
      some { id := "job-1", job_type := jt, status := JobStatus.pending,
             parameters := params, created_at := t0, started_at := none,
             completed_at := none,
             result := some { success := false, output := "", error := e2,
                              execution_time := 0, artifacts := JVal.obj [] },
             retry_count := 2, max_retries := 2, worker_id := none } ∧
    lookupJob q6 "job-1" =
      some { id := "job-1", job_type := jt, status := JobStatus.failed,
             parameters := params, created_at := t0,
             started_at := some t5, completed_at := some t6,
             result := some { success := false, output := "", error := e3,
                              execution_time := 0, artifacts := JVal.obj [] },
             retry_count := 2, max_retries := 2,
             worker_id := some w3 } :=
  ⟨rfl, rfl, rfl⟩

/-! ### Claim C4: `retry_failed_jobs` ignores the current status -/

/-- C4: `retry_failed_jobs` re-queues (status `Pending`, `started_at` and
`worker_id` cleared) exactly the jobs with `can_retry()`, i.e.
`retry_count < max_retries`, **regardless of their current status**, and
returns their number.  The extra conjuncts exhibit the "including terminal
`Failed`" part on a failed job with untouched retry budget. -/
theorem retry_requeues_every_retryable_job (jobs : QState) :
    retry_failed_jobs jobs =
      ((jobs.filter (fun p => p.2.can_retry)).length,
       jobs.map (fun p =>
         (p.1, if p.2.can_retry then requeueJob p.2 else p.2))) ∧
    (pendingEvalJob.mark_failed "boom" false 4).status = JobStatus.failed ∧
    (retry_failed_jobs
        [("job-e", pendingEvalJob.mark_failed "boom" false 4)]).2 =
      [("job-e", requeueJob (pendingEvalJob.mark_failed "boom" false 4))] :=
  ⟨retry_failed_jobs_eq jobs, rfl, rfl⟩

/-! ### Claim C6: `reset_running_jobs` -/

/-- C6: `reset_running_jobs` sends every `Running` job back to `Pending`
with `worker_id` and `started_at` cleared, leaves every job of any other
status unchanged in all fields, and returns the number of jobs reset; in
particular two jobs left `Running` both become `Pending` with `worker_id`
cleared. -/
theorem reset_running_resets_exactly_running (jobs : QState) :
    reset_running_jobs jobs =
      ((jobs.filter (fun p => p.2.status = JobStatus.running)).length,
       jobs.map (fun p =>
         (p.1, if p.2.status = JobStatus.running then requeueJob p.2
               else p.2))) ∧
    (reset_running_jobs
        [("job-c", runningCompileJob),
         ("job-e", pendingEvalJob.mark_running "worker-2" 3)]).2 =
      [("job-c", requeueJob runningCompileJob),
       ("job-e", requeueJob (pendingEvalJob.mark_running "worker-2" 3))] ∧
    (requeueJob runningCompileJob).status = JobStatus.pending ∧
    (requeueJob runningCompileJob).worker_id = none ∧
    (requeueJob (pendingEvalJob.mark_running "worker-2" 3)).status =
      JobStatus.pending ∧
    (requeueJob (pendingEvalJob.mark_running "worker-2" 3)).worker_id =
      none :=
  ⟨reset_running_jobs_eq jobs, rfl, rfl, rfl, rfl, rfl⟩

/-! ### Claim C9: unknown job ids never raise -/

/-- C9: `complete_job` and `fail_job` on an id absent from the queue are
total no-ops — the job map is unchanged, nothing is raised (the model is a
total function, mirroring the `if job_id in self.jobs` guard), and the
persisted file contents are unchanged; `get_job` on an unknown id returns
`none`. -/
theorem unknown_id_is_noop (jobs : QState) (id : String) (res : JobResult)
    (err : String) (ar : Bool) (now now2 : Nat)
    (h : lookupJob jobs id = none) :
    complete_job jobs id res now = jobs ∧
    fail_job jobs id err ar now = jobs ∧
    get_job jobs id = none ∧
    save_to_file (complete_job jobs id res now) now2 =
      save_to_file jobs now2 := by
  have hc : complete_job jobs id res now = jobs := by rw [complete_job, h]
  have hf : fail_job jobs id err ar now = jobs := by rw [fail_job, h]
  exact ⟨hc, hf, h, by rw [hc]⟩

/-- Witness for `unknown_id_is_noop` at a concrete one-job queue and the
absent id `"missing"`. -/
theorem unknown_id_is_noop_witness :
    complete_job [("job-e", pendingEvalJob)] "missing"
        { success := true, output := "", error := "", execution_time := 0,
          artifacts := JVal.obj [] } 7 = [("job-e", pendingEvalJob)] ∧
    fail_job [("job-e", pendingEvalJob)] "missing" "err" true 7 =
      [("job-e", pendingEvalJob)] ∧
    get_job [("job-e", pendingEvalJob)] "missing" = none ∧
    save_to_file (complete_job [("job-e", pendingEvalJob)] "missing"
        { success := true, output := "", error := "", execution_time := 0,
          artifacts := JVal.obj [] } 7) 8 =
      save_to_file [("job-e", pendingEvalJob)] 8 :=
  unknown_id_is_noop [("job-e", pendingEvalJob)] "missing"
    { success := true, output := "", error := "", execution_time := 0,
      artifacts := JVal.obj [] } "err" true 7 8 rfl

/-! ### Claim C8: routing of wrong-type jobs -/

/-- C8 (amended): a task worker that dequeues a job whose type it does not
handle fails it via `fail_job` **with the Python default
`allow_retry=True`** (the call site passes no third argument; the source
comment says "put it back").  Hence the job returns to `Pending` whenever
`retry_count < max_retries` — so it *can* bounce between mismatched
workers until its retry budget is exhausted — and reaches terminal
`Failed` only once retries are exhausted. -/
theorem wrong_type_job_requeued (jobs : QState) (job : Job) (now : Nat)
    (j0 : Job) (hwrong : job.job_type ≠ JobType.evaluate_task)
    (hj : lookupJob jobs job.id = some j0) :
    taskWorkerDispatch jobs job now =
      fail_job jobs job.id (taskWorkerWrongTypeMsg job.job_type) true now ∧
    (lookupJob (taskWorkerDispatch jobs job now) job.id).map Job.status =
      some (if j0.can_retry then JobStatus.pending else JobStatus.failed) := by
  have hd : taskWorkerDispatch jobs job now =
      fail_job jobs job.id (taskWorkerWrongTypeMsg job.job_type) true now := by
    rw [taskWorkerDispatch, if_pos hwrong]
  refine ⟨hd, ?_⟩
  rw [hd]
  have hfq : fail_job jobs job.id (taskWorkerWrongTypeMsg job.job_type)
        true now =
      updateJob jobs job.id
        (fun j => j.mark_failed (taskWorkerWrongTypeMsg job.job_type)
          true now) := by
    rw [fail_job, hj]
  rw [hfq, lookup_updateJob, if_pos rfl, hj, Option.map_some',
    Option.map_some', mark_failed_status]
  simp

/-- Witness for `wrong_type_job_requeued`: a running `CompileCheck` job in
a task worker's hands. -/
theorem wrong_type_job_requeued_witness :
    taskWorkerDispatch [("job-c", runningCompileJob)] runningCompileJob 9 =
      fail_job [("job-c", runningCompileJob)] runningCompileJob.id
        (taskWorkerWrongTypeMsg runningCompileJob.job_type) true 9 ∧
    (lookupJob (taskWorkerDispatch [("job-c", runningCompileJob)]
        runningCompileJob 9) runningCompileJob.id).map Job.status =
      some (if runningCompileJob.can_retry then JobStatus.pending
            else JobStatus.failed) :=
  wrong_type_job_requeued [("job-c", runningCompileJob)] runningCompileJob 9
    runningCompileJob (by decide) rfl

/-- C8 (counterexample): the claim's terminal-`Failed` behaviour is false
on the code: a wrongly-claimed `CompileCheck` job with retry budget left
(`retry_count = 0 < 3 = max_retries`) ends up `Pending` again after the
task worker's wrong-type `fail_job` call, not `Failed`. -/
theorem wrong_type_job_not_terminal_counterexample :
    (lookupJob (taskWorkerDispatch [("job-c", runningCompileJob)]
        runningCompileJob 9) "job-c").map Job.status =
      some JobStatus.pending ∧
    some JobStatus.pending ≠ some JobStatus.failed := by
  decide

/-! ### Claim C1: corruption-tolerant loading -/

theorem load_entries_append (l1 l2 : List (String × JVal)) :
    load_entries (l1 ++ l2) = load_entries l1 ++ load_entries l2 := by
  simp [load_entries, List.filterMap_append]

theorem load_entries_skip (bid : String) (bad : JVal)
    (l : List (String × JVal)) (hbad : Job.from_dict bad = none) :
    load_entries ((bid, bad) :: l) = load_entries l := by
  simp [load_entries, List.filterMap_cons, hbad]

theorem load_entries_length (l : List (String × JVal))
    (h : ∀ p ∈ l, (Job.from_dict p.2).isSome = true) :
    (load_entries l).length = l.length := by
  induction l with
  | nil => rfl
  | cons p rest ih =>
    obtain ⟨j, hj⟩ :=
      Option.isSome_iff_exists.mp (h p (List.mem_cons_self _ _))
    have ih2 := ih (fun q hq => h q (List.mem_cons_of_mem _ hq))
    simp [load_entries, List.filterMap_cons, hj, ih2]
    intro a b hab
    exact h (a, b) (List.mem_cons_of_mem _ hab)

theorem mem_load_entries (l : List (String × JVal)) (p : String × JVal)
    (hp : p ∈ l) (j : Job) (hj : Job.from_dict p.2 = some j) :
    (p.1, j) ∈ load_entries l := by
  simp only [load_entries, List.mem_filterMap]
  exact ⟨p, hp, by simp [hj]⟩

/-- C1: loading a persisted queue file whose top-level JSON is a
well-formed object and whose `jobs` map holds decodable records plus one
malformed record yields exactly the decodable jobs: the result equals the
load of the file without the malformed record (so no sibling's decoded
fields are affected), its size is exactly the number of decodable records,
and each sibling appears with its own independent decode.  `load_from_file`
is a total function, so no exception propagates. -/
theorem corrupt_record_skipped (fields pre post : List (String × JVal))
    (bid : String) (bad : JVal)
    (hjobs : lookupJ fields "jobs" =
      some (.obj (pre ++ (bid, bad) :: post)))
    (hbad : Job.from_dict bad = none)
    (hgood : ∀ p ∈ pre ++ post, (Job.from_dict p.2).isSome = true)
    (_hkeys : ((pre ++ (bid, bad) :: post).map Prod.fst).Nodup) :
    load_from_file (JVal.obj fields) = load_entries (pre ++ post) ∧
    (load_from_file (JVal.obj fields)).length = (pre ++ post).length ∧
    ∀ p ∈ pre ++ post, ∃ j, Job.from_dict p.2 = some j ∧
      (p.1, j) ∈ load_from_file (JVal.obj fields) := by
  have hload : load_from_file (JVal.obj fields) =
      load_entries (pre ++ (bid, bad) :: post) := by
    simp [load_from_file, hjobs]
  have h1 : load_from_file (JVal.obj fields) = load_entries (pre ++ post) := by
    rw [hload, load_entries_append, load_entries_skip bid bad post hbad,
      ← load_entries_append]
  refine ⟨h1, ?_, ?_⟩
  · rw [h1]; exact load_entries_length _ hgood
  · intro p hp
    obtain ⟨j, hj⟩ := Option.isSome_iff_exists.mp (hgood p hp)
    exact ⟨j, hj, by rw [h1]; exact mem_load_entries _ p hp j hj⟩

/-- Witness for `corrupt_record_skipped`: a file with two well-formed
records around one malformed record (an empty object, on which
`Job.from_dict` raises `KeyError`) loads exactly the two good jobs. -/
theorem corrupt_record_skipped_witness :
    (load_from_file (JVal.obj
      [("jobs", JVal.obj
        [("job-e", pendingEvalJob.to_dict), ("bad", JVal.obj []),
         ("job-2", completedEvalJob.to_dict)]),
       ("saved_at", JVal.str "0")])).length =
      ([("job-e", pendingEvalJob.to_dict)] ++
       [("job-2", completedEvalJob.to_dict)]).length :=
  (corrupt_record_skipped
    [("jobs", JVal.obj
      [("job-e", pendingEvalJob.to_dict), ("bad", JVal.obj []),
       ("job-2", completedEvalJob.to_dict)]),
     ("saved_at", JVal.str "0")]
    [("job-e", pendingEvalJob.to_dict)]
    [("job-2", completedEvalJob.to_dict)]
    "bad" (JVal.obj [])
    rfl rfl (by decide) (by decide)).2.1

/-! ### Claim C7: persistence round-trip -/

theorem load_entries_save (jobs : QState) (hwf : ∀ p ∈ jobs, p.2.wf) :
    load_entries (jobs.map (fun p => (p.1, p.2.to_dict))) = jobs := by
  induction jobs with
  | nil => rfl
  | cons p rest ih =>
    have hd := from_dict_to_dict p.2 (hwf p (List.mem_cons_self _ _))
    have ih2 := ih (fun q hq => hwf q (List.mem_cons_of_mem _ hq))
    simp only [List.map_cons, load_entries, List.filterMap_cons, hd,
      Option.map_some']
    rw [show ((p.1, p.2) : String × Job) = p from rfl]
    exact congrArg (fun l => p :: l) ih2

/-- C7: for any queue of well-formed jobs, saving and re-loading the file
reproduces the job map exactly — every record field-for-field identical
(`id`, `job_type`, `status`, `parameters`, `created_at`, `started_at`,
`completed_at`, `retry_count`, `max_retries`, `worker_id`, `result`) —
and therefore identical `get_queue_stats`. -/
theorem save_load_round_trip (jobs : QState) (now : Nat)
    (hwf : ∀ p ∈ jobs, p.2.wf) :
    load_from_file (save_to_file jobs now) = jobs ∧
    get_queue_stats (load_from_file (save_to_file jobs now)) =
      get_queue_stats jobs := by
  have h1 : load_from_file (save_to_file jobs now) = jobs := by
    rw [save_to_file]
    exact load_entries_save jobs hwf
  exact ⟨h1, by rw [h1]⟩

/-- Witness for `save_load_round_trip`: a queue holding a fresh pending
job and a completed job with a result. -/
theorem save_load_round_trip_witness :
    load_from_file (save_to_file
      [("job-e", pendingEvalJob), ("job-2", completedEvalJob)] 42) =
      [("job-e", pendingEvalJob), ("job-2", completedEvalJob)] ∧
    get_queue_stats (load_from_file (save_to_file
      [("job-e", pendingEvalJob), ("job-2", completedEvalJob)] 42)) =
      get_queue_stats [("job-e", pendingEvalJob), ("job-2", completedEvalJob)] :=
  save_load_round_trip [("job-e", pendingEvalJob), ("job-2", completedEvalJob)]
    42 (by decide)

end AgentEval
